import Mathlib

/-
Verification of the cluster-membership resolution and abundance-table
collapse engine of q2-vsearch.

The embedded code comes from `q2_vsearch/_cluster_features.py` (uc-file
parsing into the feature_cluster_map table, collapse-function derivation,
representative-sequence selection, id validation, and the de novo /
closed-reference / open-reference orchestration) and from
`q2_vsearch/_cluster_sequences.py` (the dereplication uc parser).

Python strings are modelled as Lean `String`; character-level operations
(split, strip, rindex) are implemented over `String.data` with structural
recursion so that every definition evaluates by kernel reduction.
Fallible Python code is modelled with `Except PyErr`; the distinct
exception classes that the orchestration distinguishes become distinct
`PyErr` constructors.  SQLite TEXT ordering is byte order of the UTF-8
encoding, which for the id strings appearing here coincides with the
lexicographic order on `List Char`.
-/

namespace QVsearch

/-- Exception kinds raised by the embedded code paths.  `valueError` covers
the Python `ValueError`s raised inside the closed-reference try-block
(which the except-clause converts into `vsearchError`); the validation
`ValueError`s raised outside that block carry their diagnostic payload in
dedicated constructors (`featureNotInTable`, `extraTableIds`,
`extraSequenceIds`). -/
inductive PyErr where
  | indexError : PyErr
  | integrityError : PyErr
  | keyError : PyErr
  | nonIntegerCount : PyErr
  | valueError : String → PyErr
  | vsearchError : PyErr
  | unboundLocalError : PyErr
  | featureNotInTable : String → PyErr
  | extraTableIds : List String → PyErr
  | extraSequenceIds : List String → PyErr
  | mergeOverlapError : PyErr
deriving DecidableEq

/-- An abundance table: rows are (feature id, per-sample counts). -/
abbrev BTable := List (String × List Nat)

/-- A sequence set: (feature id, sequence string) records. -/
abbrev Seqs := List (String × String)

/-- Python `str.split(sep)` for a single-character separator. -/
def splitOnChar (sep : Char) : List Char → List (List Char)
  | [] => [[]]
  | c :: rest =>
    match splitOnChar sep rest with
    | [] => [[]]
    | g :: gs => if c = sep then [] :: g :: gs else (c :: g) :: gs

/-- Drop leading whitespace characters. -/
def dropLeadingWs : List Char → List Char
  | [] => []
  | c :: r => if c.isWhitespace then dropLeadingWs r else c :: r

/-- Python `str.strip()`. -/
def trimChars (cs : List Char) : List Char :=
  dropLeadingWs (dropLeadingWs cs.reverse).reverse

/-- Whether the line starts with the comment marker, `line.startswith(b'#')`. -/
def startsWithHash : List Char → Bool
  | '#' :: _ => true
  | _ => false

/-- Python `str.split()` (split on whitespace runs): raw groups, before
empty groups are discarded. -/
def splitWs : List Char → List (List Char)
  | [] => [[]]
  | c :: rest =>
    match splitWs rest with
    | [] => [[]]
    | g :: gs => if c.isWhitespace then [] :: g :: gs else (c :: g) :: gs

/-- Python `s.split()[0]`: first whitespace-delimited token, if any. -/
def firstWsToken (s : String) : Option String :=
  (((splitWs s.data).filter (fun g => !g.isEmpty)).head?).map String.mk

/-- Break a character list at the first occurrence of the `;size=`
separator: returns (part before, part after), or `none` when the
separator does not occur. -/
def breakOnSizeTag : List Char → Option (List Char × List Char)
  | [] => none
  | c :: rest =>
    if ";size=".data.isPrefixOf (c :: rest) then some ([], (c :: rest).drop 6)
    else
      match breakOnSizeTag rest with
      | none => none
      | some p => some (c :: p.1, p.2)

/-- Parse a decimal numeral (used for the `;size=N` annotation; SQLite
stores the value in the INTEGER column). -/
def parseNat? (cs : List Char) : Option Nat :=
  if cs.isEmpty then none
  else
    cs.foldl
      (fun acc c =>
        acc.bind (fun n => if c.isDigit then some (n * 10 + (c.toNat - 48)) else none))
      (some 0)

/-- A row of the `feature_cluster_map` SQLite table built by
`_uc_to_sqlite`: `feature_id TEXT PRIMARY KEY, cluster_id TEXT NOT NULL,
count INTEGER` (count may be NULL). -/
structure UcRow where
  feature_id : String
  cluster_id : String
  count : Option Nat
deriving DecidableEq

/-- One iteration of the `for line in uc` loop of `_uc_to_sqlite`:
strip the line, skip blank and `#` lines, split on tabs, and insert a row
for an S record (feature = cluster = the id up to the first `;`, count
NULL) or an H record (feature and count from splitting the query id on
`;size=`, cluster from the target id up to the first `;`).  The PRIMARY
KEY constraint on feature_id makes a duplicate insert fail. -/
def ucStep (acc : List UcRow) (line : String) : Except PyErr (List UcRow) :=
  let l := trimChars line.data
  if l.isEmpty || startsWithHash l then .ok acc
  else
    let fields := (splitOnChar '\t' l).map String.mk
    if fields.headD "" = "S" then
      match fields[8]? with
      | none => .error .indexError
      | some f8 =>
        let sid := String.mk ((splitOnChar ';' f8.data).headD [])
        if acc.any (fun r => decide (r.feature_id = sid)) then .error .integrityError
        else .ok (acc ++ [⟨sid, sid, none⟩])
    else if fields.headD "" = "H" then
      match fields[9]?, fields[8]? with
      | some f9, some f8 =>
        let centroid := String.mk ((splitOnChar ';' f9.data).headD [])
        match breakOnSizeTag f8.data with
        | none => .error .indexError
        | some ps =>
          let sid := String.mk ps.1
          let countChars :=
            match breakOnSizeTag ps.2 with
            | none => ps.2
            | some qs => qs.1
          match parseNat? countChars with
          | none => .error .nonIntegerCount
          | some n =>
            if acc.any (fun r => decide (r.feature_id = sid)) then .error .integrityError
            else .ok (acc ++ [⟨sid, centroid, some n⟩])
      | _, _ => .error .indexError
    else .ok acc

/-- The `for line in uc` loop: fold `ucStep` over the lines, propagating
the first raised exception. -/
def ucFold (acc : List UcRow) : List String → Except PyErr (List UcRow)
  | [] => .ok acc
  | line :: rest =>
    match ucStep acc line with
    | .error e => .error e
    | .ok acc2 => ucFold acc2 rest

/-- `_uc_to_sqlite`: parse a uc-style file (a list of lines) into the
`feature_cluster_map` rows, in insertion order. -/
def uc_to_sqlite (lines : List String) : Except PyErr (List UcRow) :=
  ucFold [] lines

/-- The dictionary `dict(c.fetchall())` of `_collapse_f_from_sqlite`:
feature id to cluster id.  Feature ids are unique (PRIMARY KEY), so no
entry overwrites another. -/
def id_to_centroid (rows : List UcRow) : List (String × String) :=
  rows.map (fun r => (r.feature_id, r.cluster_id))

/-- Association-list lookup, modelling Python dict access. -/
def alookup {α : Type} (k : String) : List (String × α) → Option α
  | [] => none
  | p :: ps => if p.1 = k then some p.2 else alookup k ps

/-- `_collapse_f_from_sqlite`: fetch the feature-to-cluster mapping; raise
`ValueError` when it is empty (zero matches identified by vsearch). -/
def collapse_f_from_sqlite (rows : List UcRow) :
    Except PyErr (List (String × String)) :=
  let d := id_to_centroid rows
  if d.length = 0 then
    .error (.valueError "No sequence matches were identified by vsearch.")
  else .ok d

/-- The `ORDER BY cluster_id ASC, feature_id ASC` key of the
`sorted_feature_cluster_map` table created by `_fasta_from_sqlite`
(SQLite TEXT comparison = lexicographic order on the character lists). -/
def rowKeyLE (a b : UcRow) : Prop :=
  a.cluster_id.data < b.cluster_id.data ∨
    (a.cluster_id.data = b.cluster_id.data ∧ a.feature_id.data ≤ b.feature_id.data)

instance : DecidableRel rowKeyLE := fun a b => by unfold rowKeyLE; infer_instance

instance : IsTotal UcRow rowKeyLE where
  total a b := by
    rcases lt_trichotomy a.cluster_id.data b.cluster_id.data with h | h | h
    · exact Or.inl (Or.inl h)
    · rcases le_total a.feature_id.data b.feature_id.data with h2 | h2
      · exact Or.inl (Or.inr ⟨h, h2⟩)
      · exact Or.inr (Or.inr ⟨h.symm, h2⟩)
    · exact Or.inr (Or.inl h)

instance : IsTrans UcRow rowKeyLE where
  trans a b c hab hbc := by
    rcases hab with h | ⟨e, h⟩ <;> rcases hbc with h2 | ⟨e2, h2⟩
    · exact Or.inl (h.trans h2)
    · exact Or.inl (e2 ▸ h)
    · exact Or.inl (e ▸ h2)
    · exact Or.inr ⟨e.trans e2, h.trans h2⟩

/-- The contents of `sorted_feature_cluster_map`: the membership rows
sorted by (cluster_id ASC, feature_id ASC). -/
def sortRows (rows : List UcRow) : List UcRow :=
  List.insertionSort rowKeyLE rows

/-- SQLite MAX aggregation step: NULL values are ignored. -/
def optMaxCount : Option Nat → Option Nat → Option Nat
  | none, b => b
  | some a, none => some a
  | some a, some b => some (max a b)

/-- `MAX(fcm.count)` over the group of rows of cluster `c`. -/
def groupMax (rows : List UcRow) (c : String) : Option Nat :=
  rows.foldr (fun r acc => if r.cluster_id = c then optMaxCount r.count acc else acc)
    none

/-- The row that supplies the bare columns of the grouped
`SELECT ... MAX(fcm.count) ... GROUP BY fcm.cluster_id` query: scanning
the pre-sorted table, the first row of the group whose count attains the
maximum (the aggregate only replaces its candidate on a strictly larger
value). -/
def repRow (rows : List UcRow) (c : String) : Option UcRow :=
  (sortRows rows).find?
    (fun r => decide (r.cluster_id = c ∧ r.count = groupMax rows c))

/-- `_fasta_from_sqlite`: join the membership rows with the input
sequences (INNER JOIN drops rows without a sequence), group by cluster in
ascending order, and emit one `(cluster id, representative sequence)`
record per cluster. -/
def fasta_from_sqlite (rows : List UcRow) (seqs : Seqs) : Seqs :=
  let joined := rows.filter (fun r => (alookup r.feature_id seqs).isSome)
  let clusters := ((sortRows joined).map (fun r => r.cluster_id)).dedup
  clusters.filterMap
    (fun c =>
      (repRow joined c).bind
        (fun r => (alookup r.feature_id seqs).map (fun s => (c, s))))

/-- Pointwise addition of count vectors (rows of the abundance table). -/
def vecAdd : List Nat → List Nat → List Nat
  | [], ys => ys
  | x :: xs, [] => x :: xs
  | x :: xs, y :: ys => (x + y) :: vecAdd xs ys

/-- Sum of a group of count vectors. -/
def sumRows (rs : List (List Nat)) : List Nat :=
  rs.foldr vecAdd []

/-- `biom.Table.collapse(collapse_f, norm=False, min_group_size=1,
axis='observation')` as invoked by the clustering pipelines: each output
row is a distinct cluster id, whose cells are the plain sums of the member
rows; no normalization.  The collapse function is the dict-backed closure
from `_collapse_f_from_sqlite`; a feature id missing from the dict raises
KeyError, modelled as `none`. -/
def collapse_table (f : String → Option String) (table : BTable) :
    Option BTable :=
  if table.all (fun r => (f r.1).isSome) then
    some
      (((table.filterMap (fun r => f r.1)).dedup).map
        (fun c =>
          (c, sumRows ((table.filter (fun r => decide (f r.1 = some c))).map
            (fun r => r.2)))))
  else none

/-- Total abundance over all cells of a table. -/
def grandTotal (t : BTable) : Nat :=
  (t.map (fun r => r.2.sum)).sum

/-- Per-sample column sum (sample at index `j`; absent cells count 0). -/
def colSum (j : Nat) (t : BTable) : Nat :=
  (t.map (fun r => r.2.getD j 0)).sum

/-- `_error_on_nonoverlapping_ids`: when `check_extra_table_ids`, fail on
ids present in the table but not in the sequences; when
`check_extra_sequence_ids`, fail on ids present in the sequences but not
in the table.  The error lists the offending ids. -/
def error_on_nonoverlapping_ids (table_ids sequence_ids : List String)
    (chkTable chkSeq : Bool) : Except PyErr Unit :=
  let extraT := table_ids.filter (fun i => decide (i ∉ sequence_ids))
  if chkTable ∧ extraT ≠ [] then .error (.extraTableIds extraT)
  else
    let extraS := sequence_ids.filter (fun i => decide (i ∉ table_ids))
    if chkSeq ∧ extraS ≠ [] then .error (.extraSequenceIds extraS)
    else .ok ()

/-- The input validation performed by `cluster_features_closed_reference`
(lines 242-245): `_error_on_nonoverlapping_ids(table_ids, sequence_ids)`
with both check flags left at their default `True`. -/
def closed_reference_validate (table_ids sequence_ids : List String) :
    Except PyErr Unit :=
  error_on_nonoverlapping_ids table_ids sequence_ids true true

/-- The per-feature total abundances, `zip(table_ids,
table.sum(axis='observation'))`. -/
def sizesOf (table : BTable) : List (String × Nat) :=
  table.map (fun r => (r.1, r.2.sum))

/-- The write loop of `_fasta_with_sizes`: each sequence is annotated with
its total abundance from the table; a sequence id absent from the table
raises `ValueError` naming that id. -/
def fasta_with_sizes_go (sizes : List (String × Nat)) :
    Seqs → Except PyErr (List (String × Nat × String))
  | [] => .ok []
  | p :: rest =>
    match alookup p.1 sizes with
    | none => .error (.featureNotInTable p.1)
    | some n => (fasta_with_sizes_go sizes rest).map (fun out => (p.1, n, p.2) :: out)

/-- `_fasta_with_sizes`: write the abundance-annotated FASTA, then check
that the table has no ids missing from the sequences
(`check_extra_table_ids=True, check_extra_sequence_ids=False`). -/
def fasta_with_sizes (seqs : Seqs) (table : BTable) :
    Except PyErr (List (String × Nat × String)) :=
  match fasta_with_sizes_go (sizesOf table) seqs with
  | .error e => .error e
  | .ok out =>
    match error_on_nonoverlapping_ids (table.map (fun r => r.1))
        (seqs.map (fun p => p.1)) true false with
    | .error e => .error e
    | .ok _ => .ok out

/-- `cluster_features_de_novo`: size-annotate and validate the input,
invoke the external tool (abstracted as `tool`, returning the uc lines and
the centroid sequences it writes), parse the membership output, derive the
collapse function, and collapse the table (`norm=False`). -/
def cluster_features_de_novo
    (tool : List (String × Nat × String) → List String × Seqs)
    (seqs : Seqs) (table : BTable) : Except PyErr (BTable × Seqs) :=
  match fasta_with_sizes seqs table with
  | .error e => .error e
  | .ok sized =>
    let r := tool sized
    match uc_to_sqlite r.1 with
    | .error e => .error e
    | .ok rows =>
      match collapse_f_from_sqlite rows with
      | .error e => .error e
      | .ok d =>
        match collapse_table (fun i => alookup i d) table with
        | none => .error .keyError
        | some t2 => .ok (t2, r.2)

/-- The try-block of `cluster_features_closed_reference` (lines 282-295):
parse the uc output, derive the collapse function, and select
representative sequences; an except-clause converts any `ValueError` into
the distinguished `VSearchError` (no matches to reference_sequences). -/
def closed_ref_match_stage (lines : List String) (seqs : Seqs) :
    Except PyErr (List (String × String) × Seqs) :=
  let attempt : Except PyErr (List (String × String) × Seqs) :=
    match uc_to_sqlite lines with
    | .error e => .error e
    | .ok rows =>
      match collapse_f_from_sqlite rows with
      | .error e => .error e
      | .ok d => .ok (d, fasta_from_sqlite rows seqs)
  match attempt with
  | .error (.valueError _) => .error .vsearchError
  | r => r

/-- `table.filter(ids_to_keep=unmatched_ids, invert=True,
axis='observation', inplace=True)`: remove the listed rows from the
table object itself. -/
def filter_obs_invert (table : BTable) (ids : List String) : BTable :=
  table.filter (fun r => decide (r.1 ∉ ids))

/-- The table-state effect of the tail of
`cluster_features_closed_reference` (lines 297-307): the in-place filter
replaces the contents of the caller-supplied table object, and the
collapsed result is computed from the filtered table.  First component:
the caller object's final contents; second: the collapsed output. -/
def closed_ref_table_effect (f : String → Option String)
    (unmatched_ids : List String) (table : BTable) : BTable × Option BTable :=
  let t1 := filter_obs_invert table unmatched_ids
  (t1, collapse_table f t1)

/-- The table-state effect of `cluster_features_de_novo` (lines 204-208):
`table.collapse(...)` returns a new table and only the local name is
rebound, so the caller object keeps its contents. -/
def de_novo_table_effect (f : String → Option String) (table : BTable) :
    BTable × Option BTable :=
  (table, collapse_table f table)

/-- `q2-feature-table` `filter_features` with a metadata selection: keep
the table rows whose feature id appears in the given sequence set. -/
def filter_features (table : BTable) (md : Seqs) : BTable :=
  table.filter (fun r => decide (∃ s ∈ md, s.1 = r.1))

/-- `q2-feature-table` `merge_seqs`: combine two sequence sets. -/
def merge_seqs (s1 s2 : Seqs) : Seqs :=
  s1 ++ s2

/-- `q2-feature-table` `merge` with
`overlap_method='error_on_overlapping_feature'`. -/
def merge_tables (t1 t2 : BTable) : Except PyErr BTable :=
  if t1.any (fun r => t2.any (fun q => decide (q.1 = r.1))) then
    .error .mergeOverlapError
  else .ok (t1 ++ t2)

/-- `cluster_features_open_reference`: the closed-reference attempt is a
parameter (`closedResult`); only a `VSearchError` from it is caught
(`skipped_closed_ref` then stays true), any other error propagates.  If
unmatched sequences remain, the table is restricted to them and de novo
clustering (a parameter, looked up from the plugin registry in the source)
runs on them; otherwise the skip-de-novo branch returns `rep_seqs`, which
in the skipped-closed-reference case was never assigned
(`UnboundLocalError`). -/
def cluster_features_open_reference
    (closedResult : Except PyErr (BTable × Seqs × Seqs))
    (sequences : Seqs) (table : BTable) (reference_sequences : Seqs)
    (deNovo : Seqs → BTable → BTable × Seqs) :
    Except PyErr (BTable × Seqs × Seqs) :=
  match closedResult with
  | .error .vsearchError =>
    let unmatched_seqs := sequences
    if 0 < unmatched_seqs.length then
      let unmatched_table := filter_features table unmatched_seqs
      let dn := deNovo unmatched_seqs unmatched_table
      .ok (dn.1, dn.2, merge_seqs reference_sequences dn.2)
    else .error .unboundLocalError
  | .error e => .error e
  | .ok (closed_ref_table, rep_seqs, unmatched_seqs) =>
    if 0 < unmatched_seqs.length then
      let unmatched_table := filter_features table unmatched_seqs
      let dn := deNovo unmatched_seqs unmatched_table
      match merge_tables closed_ref_table dn.1 with
      | .error e => .error e
      | .ok merged =>
          .ok (merged, merge_seqs rep_seqs dn.2, merge_seqs reference_sequences dn.2)
    else .ok (closed_ref_table, rep_seqs, reference_sequences)

/-- The state of the dereplication uc parser `_parse_uc`
(`_cluster_sequences.py`): interned observation and sample id lists and
the per-(observation, sample) counts. -/
structure DerepState where
  observation_ids : List String
  sample_ids : List String
  data : List ((String × String) × Nat)
deriving DecidableEq

/-- Register an observation id the first time it is seen. -/
def registerObs (st : DerepState) (o : String) : DerepState :=
  if o ∈ st.observation_ids then st
  else { st with observation_ids := st.observation_ids ++ [o] }

/-- Register a sample id the first time it is seen. -/
def registerSample (st : DerepState) (s : String) : DerepState :=
  if s ∈ st.sample_ids then st
  else { st with sample_ids := st.sample_ids ++ [s] }

/-- `data[(observation_idx, sample_idx)] += 1` on the defaultdict. -/
def bumpCount (d : List ((String × String) × Nat)) (k : String × String) :
    List ((String × String) × Nat) :=
  if d.any (fun p => decide (p.1 = k)) then
    d.map (fun p => if p.1 = k then (p.1, p.2 + 1) else p)
  else d ++ [(k, 1)]

/-- Python `query_id.rindex('_')` followed by slicing: split a character
list at its LAST underscore, returning (prefix, suffix); `none` when no
underscore occurs (in which case `_parse_uc` raises `ValueError`). -/
def lastSplitUc : List Char → Option (List Char × List Char)
  | [] => none
  | c :: rest =>
    match lastSplitUc rest with
    | some p => some (c :: p.1, p.2)
    | none => if c = '_' then some ([], rest) else none

/-- The `ValueError` message of `_parse_uc` for a query id without an
underscore. -/
def underscoreMsg : String :=
  "A query sequence was encountered that does not have an underscore. An underscore is required in all query sequence identifiers to indicate the sample identifier."

/-- The body of the `_parse_uc` loop after tab-splitting: skip
unrecognized markers; take the first whitespace token of the target
(field 9) and query (field 8) ids; an `*` target means the query is its
own observation; register the observation; for H and S records, the
sample id is everything before the LAST underscore of the query id
(`rindex`), and the (observation, sample) count is incremented. -/
def parse_uc_fieldstep (st : DerepState) (fields : List String) :
    Except PyErr DerepState :=
  let line_type := fields.headD ""
  if ¬ (line_type = "H" ∨ line_type = "S" ∨ line_type = "L") then .ok st
  else
    match fields[9]?, fields[8]? with
    | some f9, some f8 =>
      match firstWsToken f9, firstWsToken f8 with
      | some obs0, some query_id =>
        let observation_id := if obs0 = "*" then query_id else obs0
        let st1 := registerObs st observation_id
        if line_type = "H" ∨ line_type = "S" then
          match lastSplitUc query_id.data with
          | none => .error (.valueError underscoreMsg)
          | some ps =>
            let sample_id := String.mk ps.1
            let st2 := registerSample st1 sample_id
            .ok { st2 with data := bumpCount st2.data (observation_id, sample_id) }
        else .ok st1
      | _, _ => .error .indexError
    | _, _ => .error .indexError

/-- One line of `_parse_uc`: strip, skip blank lines, split on tabs. -/
def parse_uc_linestep (st : DerepState) (line : String) :
    Except PyErr DerepState :=
  let l := trimChars line.data
  if l.isEmpty then .ok st
  else parse_uc_fieldstep st ((splitOnChar '\t' l).map String.mk)

/-- The `for line in fh` loop of `_parse_uc`. -/
def parse_uc_fold (st : DerepState) : List String → Except PyErr DerepState
  | [] => .ok st
  | line :: rest =>
    match parse_uc_linestep st line with
    | .error e => .error e
    | .ok st2 => parse_uc_fold st2 rest

/-- `_parse_uc`: fold the line step over the uc file. -/
def parse_uc (lines : List String) : Except PyErr DerepState :=
  parse_uc_fold ⟨[], [], []⟩ lines

/-! ### Claim C1: closed-reference input validation -/

/-- Claim C1, counterexample: with table ids `{f1}` and sequence ids
`{f1, f2}`, the closed-reference input validation does raise on the extra
sequence id `f2`, contradicting the claim that the reverse direction is
not checked (line 245 calls `_error_on_nonoverlapping_ids` with both
check flags at their default `True`). -/
theorem closed_reference_validate_extra_seq_cex :
    closed_reference_validate ["f1"] ["f1", "f2"] =
      .error (.extraSequenceIds ["f2"]) := rfl

/-- Claim C1, amended: the input validation of
`cluster_features_closed_reference` checks both directions, exactly as in
de novo mode: it succeeds iff the table ids and the sequence ids are the
same set, and it raises both on extra table ids and on extra sequence
ids. -/
theorem closed_reference_validate_ok_iff (tids sids : List String) :
    closed_reference_validate tids sids = .ok () ↔
      ((∀ i ∈ tids, i ∈ sids) ∧ (∀ i ∈ sids, i ∈ tids)) := by
  unfold closed_reference_validate error_on_nonoverlapping_ids
  simp only [eq_self_iff_true, true_and]
  split_ifs with h1 h2
  · constructor
    · intro h; cases h
    · rintro ⟨ha, _⟩
      exact absurd (List.filter_eq_nil_iff.mpr (by simpa using ha)) h1
  · constructor
    · intro h; cases h
    · rintro ⟨_, hb⟩
      exact absurd (List.filter_eq_nil_iff.mpr (by simpa using hb)) h2
  · simp only [not_not] at h1 h2
    rw [List.filter_eq_nil_iff] at h1 h2
    simp only [decide_eq_true_eq, not_not] at h1 h2
    exact iff_of_true rfl ⟨h1, h2⟩

/-- Witness for C1: at table ids `{a}` = sequence ids `{a}`, the
validation succeeds. -/
theorem closed_reference_validate_ok_iff_witness :
    closed_reference_validate ["a"] ["a"] = .ok () :=
  (closed_reference_validate_ok_iff ["a"] ["a"]).mpr (by decide)

/-! ### Claim C2: frame effect on the caller-supplied table -/

/-- Claim C2, counterexample: closed-reference clustering mutates the
caller-supplied table object: with unmatched id `f2`, the caller object
ends up without the `f2` row (`table.filter(..., inplace=True)` at lines
301-302). -/
theorem closed_ref_effect_mutates_cex :
    (closed_ref_table_effect (fun _ => none) ["f2"]
        [("f1", [1]), ("f2", [2])]).1 ≠ [("f1", [1]), ("f2", [2])] := by
  decide

/-- Claim C2, amended: `cluster_features_de_novo` leaves the
caller-supplied table unchanged (the collapsed output is a separate,
newly constructed table), but `cluster_features_closed_reference` filters
the caller-supplied table in place: its final contents are the
unmatched-filtered rows, so whenever some table row is in the unmatched
set the caller object is modified. -/
theorem table_effect_frame (f : String → Option String)
    (uids : List String) (table : BTable) :
    (de_novo_table_effect f table).1 = table ∧
    (closed_ref_table_effect f uids table).1 = filter_obs_invert table uids ∧
    ((∃ r ∈ table, r.1 ∈ uids) →
      (closed_ref_table_effect f uids table).1 ≠ table) := by
  refine ⟨rfl, rfl, ?_⟩
  rintro ⟨r, hr, hrid⟩ heq
  have hlt : (filter_obs_invert table uids).length < table.length := by
    unfold filter_obs_invert
    exact List.length_filter_lt_length_iff_exists.mpr ⟨r, hr, by simp [hrid]⟩
  have : (closed_ref_table_effect f uids table).1 = filter_obs_invert table uids := rfl
  rw [this] at heq
  rw [heq] at hlt
  exact lt_irrefl _ hlt

/-- Witness for C2 (amended): concrete two-row table with one unmatched
row; de novo leaves it unchanged while closed-reference does not. -/
theorem table_effect_frame_witness :
    (de_novo_table_effect (fun _ => none) [("f1", [1]), ("f2", [2])]).1 =
        [("f1", [1]), ("f2", [2])] ∧
    (closed_ref_table_effect (fun _ => none) ["f2"]
        [("f1", [1]), ("f2", [2])]).1 ≠ [("f1", [1]), ("f2", [2])] :=
  ⟨(table_effect_frame (fun _ => none) ["f2"] [("f1", [1]), ("f2", [2])]).1,
   (table_effect_frame (fun _ => none) ["f2"] [("f1", [1]), ("f2", [2])]).2.2
     ⟨("f2", [2]), by decide, by decide⟩⟩

/-! ### Claim C5: seed records store no count -/

/-- Claim C5, counterexample: parsing a single seed (S) record leaves its
count NULL; `_uc_to_sqlite` performs no lookup in the abundance table (it
does not even receive the table). -/
theorem uc_seed_count_cex :
    uc_to_sqlite ["S\t0\t120\t*\t*\t*\t*\t*\tf1\t*"] =
      .ok [⟨"f1", "f1", none⟩] := rfl

/-- Claim C5, amended: every row contributed by a seed (S) record has
`count = NULL` (left absent, never looked up from the abundance table)
and its cluster id equal to its feature id. -/
theorem uc_seed_rows_count_none (acc : List UcRow) (line : String)
    (rows : List UcRow) (hok : ucStep acc line = .ok rows)
    (hS : ((splitOnChar '\t' (trimChars line.data)).map String.mk).headD "" = "S") :
    ∀ r ∈ rows, r ∈ acc ∨ (r.count = none ∧ r.cluster_id = r.feature_id) := by
  by_cases hskip : (trimChars line.data).isEmpty || startsWithHash (trimChars line.data)
  · have : rows = acc := by
      unfold ucStep at hok
      simp only [hskip, if_true, Except.ok.injEq] at hok
      exact hok.symm
    subst this
    exact fun r hr => Or.inl hr
  · unfold ucStep at hok
    simp only [hskip, if_false, hS, if_true] at hok
    rcases h8 : ((splitOnChar '\t' (trimChars line.data)).map String.mk)[8]? with _ | f8
    · rw [h8] at hok; cases hok
    · rw [h8] at hok
      by_cases hdup : (acc.any (fun r =>
          decide (r.feature_id = String.mk ((splitOnChar ';' f8.data).headD []))))
      · simp only [hdup, if_true] at hok; cases hok
      · simp only [hdup, Bool.false_eq_true, if_false, Except.ok.injEq] at hok
        have : acc ++ [(⟨String.mk ((splitOnChar ';' f8.data).headD []),
            String.mk ((splitOnChar ';' f8.data).headD []), none⟩ : UcRow)] = rows := hok
        subst this
        intro r hr
        rcases List.mem_append.mp hr with h | h
        · exact Or.inl h
        · rcases List.mem_singleton.mp h with rfl
          exact Or.inr ⟨rfl, rfl⟩

/-- Witness for C5 (amended): the row produced by a concrete S record has
no count and cluster id equal to feature id. -/
theorem uc_seed_rows_count_none_witness :
    (⟨"f1", "f1", none⟩ : UcRow) ∈ ([] : List UcRow) ∨
      ((⟨"f1", "f1", none⟩ : UcRow).count = none ∧
       (⟨"f1", "f1", none⟩ : UcRow).cluster_id = (⟨"f1", "f1", none⟩ : UcRow).feature_id) :=
  uc_seed_rows_count_none [] "S\t0\t120\t*\t*\t*\t*\t*\tf1\t*"
    [⟨"f1", "f1", none⟩] rfl rfl ⟨"f1", "f1", none⟩ (by decide)

/-! ### Claim C10: unbound local in the open-reference skip branch -/

/-- Claim C10: when the closed-reference attempt raises the no-matches
error and the original sequence set is empty, `skipped_closed_ref` is
true, `unmatched_seqs` (= the empty sequence set) makes the pipeline skip
de novo, and the skip branch reads `rep_seqs`, which was never assigned:
the invocation fails with `UnboundLocalError` instead of returning a
result or raising a designed error. -/
theorem open_reference_unbound_local :
    cluster_features_open_reference (.error .vsearchError) [] [("f1", [1])]
      [("r1", "A")] (fun s t => (t, s)) = .error .unboundLocalError := rfl

/-! ### Claim C4: collapse is a pure summation conserving all sums -/

theorem vecAdd_sum (xs ys : List Nat) : (vecAdd xs ys).sum = xs.sum + ys.sum := by
  induction xs generalizing ys with
  | nil => simp [vecAdd]
  | cons x xs ih =>
    cases ys with
    | nil => simp [vecAdd]
    | cons y ys =>
      simp only [vecAdd, List.sum_cons, ih]
      ring

theorem vecAdd_getD (j : Nat) (xs ys : List Nat) :
    (vecAdd xs ys).getD j 0 = xs.getD j 0 + ys.getD j 0 := by
  induction xs generalizing ys j with
  | nil => simp [vecAdd]
  | cons x xs ih =>
    cases ys with
    | nil => simp [vecAdd]
    | cons y ys =>
      cases j with
      | zero => simp [vecAdd]
      | succ j => simpa [vecAdd] using ih j ys

theorem sumRows_sum (rs : List (List Nat)) :
    (sumRows rs).sum = (rs.map List.sum).sum := by
  induction rs with
  | nil => rfl
  | cons r rs ih =>
    have hstep : sumRows (r :: rs) = vecAdd r (sumRows rs) := rfl
    rw [hstep, vecAdd_sum, ih]
    simp

theorem sumRows_getD (j : Nat) (rs : List (List Nat)) :
    (sumRows rs).getD j 0 = (rs.map (fun r => r.getD j 0)).sum := by
  induction rs with
  | nil => rfl
  | cons r rs ih =>
    have hstep : sumRows (r :: rs) = vecAdd r (sumRows rs) := rfl
    rw [hstep, vecAdd_getD, ih]
    simp

theorem sum_map_update (h : String → Nat) (x : Nat) (b : String)
    (ks : List String) (hnd : ks.Nodup) (hb : b ∈ ks) :
    (ks.map (fun c => if b = c then x + h c else h c)).sum = x + (ks.map h).sum := by
  induction ks with
  | nil => cases hb
  | cons a ks ih =>
    rcases List.mem_cons.mp hb with rfl | hb2
    · have hrest : ∀ c ∈ ks, ¬ b = c := by
        intro c hc e
        exact (List.nodup_cons.mp hnd).1 (e ▸ hc)
      simp only [List.map_cons, List.sum_cons, if_true]
      rw [List.map_congr_left (fun c hc => if_neg (hrest c hc))]
      ring
    · have hba : ¬ b = a := by
        intro e
        exact (List.nodup_cons.mp hnd).1 (e ▸ hb2)
      simp only [List.map_cons, List.sum_cons, if_neg hba]
      rw [ih (List.nodup_cons.mp hnd).2 hb2]
      ring

/-- Summing group sums over the distinct cluster values recovers the sum
over all rows, provided every row maps into the cluster list. -/
theorem sum_fiber_opt {α : Type} (g : α → Nat) (k : α → Option String)
    (l : List α) (ks : List String) (hnd : ks.Nodup)
    (hcov : ∀ a ∈ l, ∃ c ∈ ks, k a = some c) :
    (ks.map (fun c => ((l.filter (fun a => decide (k a = some c))).map g).sum)).sum
      = (l.map g).sum := by
  induction l with
  | nil => simp
  | cons a l ih =>
    have hcov2 : ∀ x ∈ l, ∃ c ∈ ks, k x = some c :=
      fun x hx => hcov x (List.mem_cons_of_mem a hx)
    rcases hcov a (List.mem_cons_self a l) with ⟨c0, hc0, hk⟩
    have step : ∀ c ∈ ks,
        (((a :: l).filter (fun x => decide (k x = some c))).map g).sum
          = if c0 = c then g a + ((l.filter (fun x => decide (k x = some c))).map g).sum
            else ((l.filter (fun x => decide (k x = some c))).map g).sum := by
      intro c _
      by_cases h : c0 = c
      · subst h
        simp [List.filter_cons, hk]
      · have : ¬ (k a = some c) := by
          rw [hk]
          simpa using h
        simp [List.filter_cons, this, h]
    rw [List.map_congr_left step]
    rw [sum_map_update
      (fun c => ((l.filter (fun x => decide (k x = some c))).map g).sum)
      (g a) c0 ks hnd hc0]
    rw [ih hcov2]
    simp

/-- Claim C4: the table collapse invoked by the clustering pipelines
(`table.collapse(collapse_f, norm=False, min_group_size=1,
axis='observation')`) is a pure summation: whenever the mapping is total
over the table rows (the collapse succeeds), every per-sample column sum
and the grand total of the output equal those of the input. -/
theorem collapse_conservation (f : String → Option String) (t t2 : BTable)
    (h : collapse_table f t = some t2) :
    grandTotal t2 = grandTotal t ∧ ∀ j, colSum j t2 = colSum j t := by
  unfold collapse_table at h
  by_cases hall : t.all (fun r => (f r.1).isSome) = true
  case neg => rw [if_neg hall] at h; cases h
  rw [if_pos hall] at h
  injection h with h
  subst h
  have hnd : ((t.filterMap (fun r => f r.1)).dedup).Nodup := List.nodup_dedup _
  have hcov : ∀ a ∈ t, ∃ c ∈ (t.filterMap (fun r => f r.1)).dedup, f a.1 = some c := by
    intro a ha
    have hsome : (f a.1).isSome := by
      have := List.all_eq_true.mp hall a ha
      simpa using this
    rcases Option.isSome_iff_exists.mp hsome with ⟨c, hc⟩
    exact ⟨c, List.mem_dedup.mpr (List.mem_filterMap.mpr ⟨a, ha, hc⟩), hc⟩
  constructor
  · unfold grandTotal
    rw [List.map_map]
    have hpt : ∀ c ∈ (t.filterMap (fun r => f r.1)).dedup,
        ((fun r : String × List Nat => r.2.sum) ∘
          (fun c => (c, sumRows ((t.filter (fun r => decide (f r.1 = some c))).map
            (fun r => r.2))))) c
          = ((t.filter (fun r => decide (f r.1 = some c))).map
              (fun r => r.2.sum)).sum := by
      intro c _
      simp [Function.comp, sumRows_sum, List.map_map, Function.comp_def]
    rw [List.map_congr_left hpt]
    exact sum_fiber_opt (fun r => r.2.sum) (fun r => f r.1) t _ hnd hcov
  · intro j
    unfold colSum
    rw [List.map_map]
    have hpt : ∀ c ∈ (t.filterMap (fun r => f r.1)).dedup,
        ((fun r : String × List Nat => r.2.getD j 0) ∘
          (fun c => (c, sumRows ((t.filter (fun r => decide (f r.1 = some c))).map
            (fun r => r.2))))) c
          = ((t.filter (fun r => decide (f r.1 = some c))).map
              (fun r => r.2.getD j 0)).sum := by
      intro c _
      show (sumRows ((t.filter (fun r => decide (f r.1 = some c))).map
        (fun r => r.2))).getD j 0 = _
      rw [sumRows_getD, List.map_map]
      rfl
    rw [List.map_congr_left hpt]
    exact sum_fiber_opt (fun r => r.2.getD j 0) (fun r => f r.1) t _ hnd hcov

/-- Witness for C4: collapsing a concrete two-feature table into one
cluster conserves the grand total and the column sums. -/
theorem collapse_conservation_witness :
    grandTotal [("c", [4, 6])] = grandTotal [("a", [1, 2]), ("b", [3, 4])] ∧
      colSum 1 [("c", [4, 6])] = colSum 1 [("a", [1, 2]), ("b", [3, 4])] :=
  ⟨(collapse_conservation (fun _ => some "c") [("a", [1, 2]), ("b", [3, 4])]
      [("c", [4, 6])] rfl).1,
   (collapse_conservation (fun _ => some "c") [("a", [1, 2]), ("b", [3, 4])]
      [("c", [4, 6])] rfl).2 1⟩

/-! ### Claim C3: representative selection is max count, then lexicographic -/

theorem foldr_perm_inv {α β : Type} (f : α → β → β)
    (hf : ∀ a b x, f a (f b x) = f b (f a x)) :
    ∀ {l₁ l₂ : List α}, l₁.Perm l₂ → ∀ b, l₁.foldr f b = l₂.foldr f b := by
  intro l₁ l₂ h
  induction h with
  | nil => intro b; rfl
  | cons a h ih => intro b; simp only [List.foldr_cons, ih]
  | swap a c l => intro b; simp only [List.foldr_cons, hf]
  | trans h₁ h₂ ih₁ ih₂ => intro b; rw [ih₁, ih₂]

theorem optMaxCount_left_comm (a b x : Option Nat) :
    optMaxCount a (optMaxCount b x) = optMaxCount b (optMaxCount a x) := by
  rcases a with _ | a <;> rcases b with _ | b <;> rcases x with _ | x <;>
      simp only [optMaxCount] <;>
    first
      | rfl
      | rw [max_left_comm]
      | rw [Nat.max_comm]

theorem groupMax_perm {rows₁ rows₂ : List UcRow} (h : rows₁.Perm rows₂)
    (c : String) : groupMax rows₁ c = groupMax rows₂ c := by
  unfold groupMax
  refine foldr_perm_inv _ ?_ h none
  intro a b x
  by_cases ha : a.cluster_id = c <;> by_cases hb : b.cluster_id = c <;>
    simp [ha, hb, optMaxCount_left_comm]

theorem rowKeyLE_refl (r : UcRow) : rowKeyLE r r :=
  Or.inr ⟨rfl, le_refl _⟩

theorem find?_min_of_sorted {p : UcRow → Bool} :
    ∀ {l : List UcRow}, List.Sorted rowKeyLE l → ∀ {r : UcRow},
      l.find? p = some r → ∀ x ∈ l, p x = true → rowKeyLE r x := by
  intro l
  induction l with
  | nil => intro _ r h; cases h
  | cons a t ih =>
    intro hs r hfind x hx hpx
    by_cases hpa : p a = true
    · rw [List.find?_cons_of_pos _ hpa] at hfind
      injection hfind with hfind
      subst hfind
      rcases List.mem_cons.mp hx with rfl | hxt
      · exact rowKeyLE_refl _
      · exact (List.sorted_cons.mp hs).1 x hxt
    · rw [List.find?_cons_of_neg _ hpa] at hfind
      rcases List.mem_cons.mp hx with rfl | hxt
      · exact absurd hpx hpa
      · exact ih (List.sorted_cons.mp hs).2 hfind x hxt hpx

/-- The grouped-max query returns, for cluster `c`, exactly the row with
maximal count and (among count ties) lexicographically least feature id,
when such a row is singled out by the hypotheses. -/
theorem repRow_eq_of_max_min (rows : List UcRow) (c : String) (r : UcRow)
    (hnd : (rows.map (fun x => x.feature_id)).Nodup)
    (hmem : r ∈ rows) (hc : r.cluster_id = c)
    (hcnt : r.count = groupMax rows c)
    (hmin : ∀ x ∈ rows, x.cluster_id = c → x.count = groupMax rows c →
      r.feature_id.data ≤ x.feature_id.data) :
    repRow rows c = some r := by
  unfold repRow
  have hperm : (sortRows rows).Perm rows := List.perm_insertionSort rowKeyLE rows
  have hsorted : List.Sorted rowKeyLE (sortRows rows) :=
    List.sorted_insertionSort rowKeyLE rows
  have hmem_s : r ∈ sortRows rows := hperm.mem_iff.mpr hmem
  have hpr : (fun x : UcRow =>
      decide (x.cluster_id = c ∧ x.count = groupMax rows c)) r = true := by
    simp [hc, hcnt]
  have hex : (((sortRows rows).find? (fun x : UcRow =>
      decide (x.cluster_id = c ∧ x.count = groupMax rows c)))).isSome :=
    List.find?_isSome.mpr ⟨r, hmem_s, hpr⟩
  rcases Option.isSome_iff_exists.mp hex with ⟨r0, hr0⟩
  have hr0p := List.find?_some hr0
  have hr0mem : r0 ∈ rows := hperm.mem_iff.mp (List.mem_of_find?_eq_some hr0)
  have hr0c : r0.cluster_id = c ∧ r0.count = groupMax rows c := by
    simpa using hr0p
  have h1 : r.feature_id.data ≤ r0.feature_id.data :=
    hmin r0 hr0mem hr0c.1 hr0c.2
  have h2 : rowKeyLE r0 r := find?_min_of_sorted hsorted hr0 r hmem_s hpr
  have hfeat : r0.feature_id = r.feature_id := by
    rcases h2 with hlt | ⟨heqc, hle⟩
    · rw [hr0c.1, hc] at hlt
      exact absurd hlt (lt_irrefl _)
    · have hdata : r0.feature_id.data = r.feature_id.data := le_antisymm hle h1
      exact String.ext hdata
  have hr0r : r0 = r := List.inj_on_of_nodup_map hnd hr0mem hmem hfeat
  rw [hr0, hr0r]

/-- Claim C3: in `_fasta_from_sqlite`, the row selected for a cluster is
the member with maximum count, ties broken by lexicographically smallest
feature id, and the selection is invariant under permutation of the
membership records (feature ids are unique by the PRIMARY KEY
constraint). -/
theorem rep_selection_max_then_lex (rows : List UcRow) (c : String)
    (r : UcRow) (hnd : (rows.map (fun x => x.feature_id)).Nodup)
    (hmem : r ∈ rows) (hc : r.cluster_id = c)
    (hcnt : r.count = groupMax rows c)
    (hmin : ∀ x ∈ rows, x.cluster_id = c → x.count = groupMax rows c →
      r.feature_id.data ≤ x.feature_id.data) :
    repRow rows c = some r ∧
      ∀ rows₂, rows₂.Perm rows → repRow rows₂ c = some r := by
  refine ⟨repRow_eq_of_max_min rows c r hnd hmem hc hcnt hmin, ?_⟩
  intro rows₂ hperm
  have hgm : groupMax rows₂ c = groupMax rows c := groupMax_perm hperm c
  refine repRow_eq_of_max_min rows₂ c r ?_ ?_ hc ?_ ?_
  · exact ((hperm.map (fun x => x.feature_id)).nodup_iff).mpr hnd
  · exact hperm.mem_iff.mpr hmem
  · rw [hgm]; exact hcnt
  · intro x hx hxc hxcnt
    refine hmin x (hperm.mem_iff.mp hx) hxc ?_
    rw [← hgm]; exact hxcnt

/-- Witness for C3: in cluster `r1` with tied counts, `feature1` beats
`feature3` under both input orderings. -/
theorem rep_selection_max_then_lex_witness :
    repRow [⟨"feature3", "r1", some 204⟩, ⟨"feature1", "r1", some 204⟩,
        ⟨"feature2", "r2", some 4⟩] "r1" = some ⟨"feature1", "r1", some 204⟩ ∧
      repRow [⟨"feature1", "r1", some 204⟩, ⟨"feature3", "r1", some 204⟩,
        ⟨"feature2", "r2", some 4⟩] "r1" = some ⟨"feature1", "r1", some 204⟩ :=
  ⟨(rep_selection_max_then_lex
      [⟨"feature3", "r1", some 204⟩, ⟨"feature1", "r1", some 204⟩,
       ⟨"feature2", "r2", some 4⟩] "r1" ⟨"feature1", "r1", some 204⟩
      (by decide) (by decide) rfl (by decide) (by decide)).1,
   (rep_selection_max_then_lex
      [⟨"feature3", "r1", some 204⟩, ⟨"feature1", "r1", some 204⟩,
       ⟨"feature2", "r2", some 4⟩] "r1" ⟨"feature1", "r1", some 204⟩
      (by decide) (by decide) rfl (by decide) (by decide)).2
     [⟨"feature1", "r1", some 204⟩, ⟨"feature3", "r1", some 204⟩,
      ⟨"feature2", "r2", some 4⟩] (List.Perm.swap _ _ _)⟩

/-! ### Claim C7: the distinguished no-matches error -/

theorem ucStep_error_kinds (acc : List UcRow) (line : String) (e : PyErr)
    (h : ucStep acc line = .error e) :
    e = .indexError ∨ e = .integrityError ∨ e = .nonIntegerCount := by
  simp only [ucStep] at h
  repeat' split at h
  all_goals try cases h
  all_goals simp

theorem ucFold_error_kinds (lines : List String) :
    ∀ (acc : List UcRow) (e : PyErr), ucFold acc lines = .error e →
      e = .indexError ∨ e = .integrityError ∨ e = .nonIntegerCount := by
  induction lines with
  | nil => intro acc e h; cases h
  | cons line rest ih =>
    intro acc e h
    unfold ucFold at h
    split at h
    next e2 heq =>
      injection h with h2
      subst h2
      exact ucStep_error_kinds acc line _ heq
    next acc2 heq =>
      exact ih acc2 e h

/-- Claim C7: an empty parsed feature-to-cluster mapping makes
`_collapse_f_from_sqlite` fail with the empty-result `ValueError`, and the
closed-reference match stage raises the distinguished `VSearchError`
exactly when the parse succeeded with zero membership rows (parse errors
themselves are never converted). -/
theorem no_matches_iff_empty_mapping (rows : List UcRow)
    (lines : List String) (seqs : Seqs) :
    (id_to_centroid rows = [] →
      collapse_f_from_sqlite rows =
        .error (.valueError "No sequence matches were identified by vsearch.")) ∧
    (closed_ref_match_stage lines seqs = .error .vsearchError ↔
      uc_to_sqlite lines = .ok []) := by
  constructor
  · intro h
    unfold collapse_f_from_sqlite
    rw [h]
    rfl
  · unfold closed_ref_match_stage
    rcases huc : uc_to_sqlite lines with e | rows2
    · simp only [huc]
      rcases ucFold_error_kinds lines [] e huc with rfl | rfl | rfl <;> simp
    · simp only [huc]
      by_cases hrows : rows2 = []
      · subst hrows
        simp [collapse_f_from_sqlite, id_to_centroid]
      · have hlen : ¬ (id_to_centroid rows2).length = 0 := by
          simpa [id_to_centroid, List.length_eq_zero] using hrows
        have hok : collapse_f_from_sqlite rows2 = .ok (id_to_centroid rows2) := by
          unfold collapse_f_from_sqlite
          rw [if_neg hlen]
        simp [hok, hrows]

/-- Witness for C7: the empty row list triggers the empty-result error,
and a blank uc file (which parses to zero rows) makes the closed-reference
match stage raise the no-matches error. -/
theorem no_matches_iff_empty_mapping_witness :
    collapse_f_from_sqlite [] =
        .error (.valueError "No sequence matches were identified by vsearch.") ∧
      (closed_ref_match_stage [""] [] = .error .vsearchError ↔
        uc_to_sqlite [""] = .ok []) :=
  ⟨(no_matches_iff_empty_mapping [] [""] []).1 rfl,
   (no_matches_iff_empty_mapping [] [""] []).2⟩

/-! ### Claim C8: de novo id validation fires before the external tool -/

theorem alookup_eq_none_iff {α : Type} (k : String) (l : List (String × α)) :
    alookup k l = none ↔ k ∉ l.map (fun p => p.1) := by
  induction l with
  | nil => simp [alookup]
  | cons p ps ih =>
    by_cases h : p.1 = k
    · simp [alookup, h]
    · simp only [alookup, h, if_false, ih, List.map_cons, List.mem_cons]
      constructor
      · intro hk hor
        rcases hor with he | hm
        · exact h he.symm
        · exact hk hm
      · intro hk hm
        exact hk (Or.inr hm)

theorem sizesOf_keys (table : BTable) :
    (sizesOf table).map (fun p => p.1) = table.map (fun r => r.1) := by
  simp [sizesOf, List.map_map]

theorem go_error_of_missing (sizes : List (String × Nat)) :
    ∀ (seqs : Seqs), (∃ p ∈ seqs, alookup p.1 sizes = none) →
      ∃ fid, fasta_with_sizes_go sizes seqs = .error (.featureNotInTable fid) ∧
        fid ∈ seqs.map (fun p => p.1) ∧ alookup fid sizes = none := by
  intro seqs
  induction seqs with
  | nil => rintro ⟨p, hp, _⟩; cases hp
  | cons q rest ih =>
    rintro ⟨p, hp, hnone⟩
    rcases hq : alookup q.1 sizes with _ | n
    · exact ⟨q.1, by simp [fasta_with_sizes_go, hq], by simp, hq⟩
    · rcases List.mem_cons.mp hp with rfl | hrest
      · rw [hq] at hnone; cases hnone
      · rcases ih ⟨p, hrest, hnone⟩ with ⟨fid, hgo, hmem2, hn⟩
        refine ⟨fid, ?_, by simp [hmem2], hn⟩
        simp [fasta_with_sizes_go, hq, hgo, Except.map]

theorem go_ok_of_found (sizes : List (String × Nat)) :
    ∀ (seqs : Seqs), (∀ p ∈ seqs, ¬ alookup p.1 sizes = none) →
      ∃ out, fasta_with_sizes_go sizes seqs = .ok out := by
  intro seqs
  induction seqs with
  | nil => intro _; exact ⟨[], rfl⟩
  | cons q rest ih =>
    intro hall
    rcases hq : alookup q.1 sizes with _ | n
    · exact absurd hq (hall q (List.mem_cons_self q rest))
    · rcases ih (fun p hp => hall p (List.mem_cons_of_mem q hp)) with ⟨out, hout⟩
      exact ⟨(q.1, n, q.2) :: out, by simp [fasta_with_sizes_go, hq, hout, Except.map]⟩

/-- Claim C8: whenever the feature-id sets of the table and the sequence
set differ in either direction, `cluster_features_de_novo` fails with an
input-consistency error that carries the offending id(s), and it does so
for every possible external tool, i.e. before the tool is ever invoked. -/
theorem de_novo_validation_raises (seqs : Seqs) (table : BTable)
    (h : (∃ i ∈ table.map (fun r => r.1), i ∉ seqs.map (fun p => p.1)) ∨
         (∃ i ∈ seqs.map (fun p => p.1), i ∉ table.map (fun r => r.1))) :
    ∃ e, (∀ tool, cluster_features_de_novo tool seqs table = .error e) ∧
      ((∃ fid, e = PyErr.featureNotInTable fid ∧ fid ∈ seqs.map (fun p => p.1) ∧
          fid ∉ table.map (fun r => r.1)) ∨
       (∃ ids, e = PyErr.extraTableIds ids ∧ ids ≠ [] ∧
          ∀ i ∈ ids, i ∈ table.map (fun r => r.1) ∧ i ∉ seqs.map (fun p => p.1))) := by
  by_cases hA : ∃ p ∈ seqs, alookup p.1 (sizesOf table) = none
  · rcases go_error_of_missing (sizesOf table) seqs hA with ⟨fid, hgo, hmem, hnone⟩
    have hfws : fasta_with_sizes seqs table = .error (.featureNotInTable fid) := by
      unfold fasta_with_sizes
      rw [hgo]
    refine ⟨.featureNotInTable fid, ?_, Or.inl ⟨fid, rfl, hmem, ?_⟩⟩
    · intro tool
      unfold cluster_features_de_novo
      rw [hfws]
    · rw [← sizesOf_keys]
      exact (alookup_eq_none_iff fid (sizesOf table)).mp hnone
  · push_neg at hA
    rcases go_ok_of_found (sizesOf table) seqs hA with ⟨out, hgo⟩
    have hleft : ∃ i ∈ table.map (fun r => r.1), i ∉ seqs.map (fun p => p.1) := by
      rcases h with h | h
      · exact h
      · rcases h with ⟨i, hi, hnit⟩
        rcases List.mem_map.mp hi with ⟨p, hp, rfl⟩
        have hnn := hA p hp
        have hsome : p.1 ∈ (sizesOf table).map (fun q => q.1) := by
          by_contra hcon
          exact hnn ((alookup_eq_none_iff _ _).mpr hcon)
        rw [sizesOf_keys] at hsome
        exact absurd hsome hnit
    rcases hleft with ⟨i, hit, hins⟩
    have hne : (table.map (fun r => r.1)).filter
        (fun x => decide (x ∉ seqs.map (fun p => p.1))) ≠ [] := by
      intro hnil
      have : i ∈ (table.map (fun r => r.1)).filter
          (fun x => decide (x ∉ seqs.map (fun p => p.1))) :=
        List.mem_filter.mpr ⟨hit, by simpa using hins⟩
      rw [hnil] at this
      cases this
    have hcheck : error_on_nonoverlapping_ids (table.map (fun r => r.1))
        (seqs.map (fun p => p.1)) true false =
        .error (.extraTableIds ((table.map (fun r => r.1)).filter
          (fun x => decide (x ∉ seqs.map (fun p => p.1))))) := by
      unfold error_on_nonoverlapping_ids
      rw [if_pos ⟨rfl, hne⟩]
    have hfws : fasta_with_sizes seqs table =
        .error (.extraTableIds ((table.map (fun r => r.1)).filter
          (fun x => decide (x ∉ seqs.map (fun p => p.1))))) := by
      unfold fasta_with_sizes
      rw [hgo, hcheck]
    refine ⟨_, ?_, Or.inr ⟨_, rfl, hne, ?_⟩⟩
    · intro tool
      unfold cluster_features_de_novo
      rw [hfws]
    · intro x hx
      have := List.mem_filter.mp hx
      exact ⟨this.1, by simpa using this.2⟩

/-- Witness for C8: a table with extra feature `f9` (absent from the
sequences) makes de novo clustering fail before any tool invocation. -/
theorem de_novo_validation_raises_witness :
    ∃ e, (∀ tool, cluster_features_de_novo tool [("f1", "AA")]
        [("f1", [1]), ("f9", [2])] = .error e) ∧
      ((∃ fid, e = PyErr.featureNotInTable fid ∧
          fid ∈ [("f1", "AA")].map (fun p => p.1) ∧
          fid ∉ [("f1", [1]), ("f9", [2])].map
            (fun r : String × List Nat => r.1)) ∨
       (∃ ids, e = PyErr.extraTableIds ids ∧ ids ≠ [] ∧
          ∀ i ∈ ids, i ∈ [("f1", [1]), ("f9", [2])].map
              (fun r : String × List Nat => r.1) ∧
            i ∉ [("f1", "AA")].map (fun p => p.1))) :=
  de_novo_validation_raises [("f1", "AA")] [("f1", [1]), ("f9", [2])]
    (Or.inl ⟨"f9", by decide, by decide⟩)

/-! ### Claim C6: open-reference no-matches fallback -/

/-- Claim C6: when the closed-reference attempt raises the distinguished
no-matches error (and only that error is caught), open-reference
clustering with a nonempty sequence set and a table covered by the
sequence ids (guaranteed by the closed-reference validation that ran
before the error) returns exactly the de novo result on the original
sequences and table, with the returned reference set being the original
references merged with the de novo representatives. -/
theorem open_reference_fallback (sequences : Seqs) (table : BTable)
    (refs : Seqs) (dn : Seqs → BTable → BTable × Seqs)
    (hne : sequences ≠ [])
    (hids : ∀ r ∈ table, ∃ s ∈ sequences, s.1 = r.1) :
    cluster_features_open_reference (.error .vsearchError) sequences table
        refs dn =
      .ok ((dn sequences table).1, (dn sequences table).2,
        merge_seqs refs (dn sequences table).2) := by
  have hlen : 0 < sequences.length := List.length_pos.mpr hne
  have hfilter : filter_features table sequences = table := by
    unfold filter_features
    rw [List.filter_eq_self]
    intro r hr
    exact decide_eq_true (hids r hr)
  simp only [cluster_features_open_reference, hfilter, if_pos hlen]

/-- Witness for C6: concrete one-feature inputs; the fallback output is
the de novo result plus the merged references. -/
theorem open_reference_fallback_witness :
    cluster_features_open_reference (.error .vsearchError) [("a", "AA")]
        [("a", [1])] [("r", "GG")] (fun s t => (t, s)) =
      .ok ([("a", [1])], [("a", "AA")], [("r", "GG"), ("a", "AA")]) :=
  open_reference_fallback [("a", "AA")] [("a", [1])] [("r", "GG")]
    (fun s t => (t, s)) (by decide) (by decide)

/-! ### Claim C9: dereplication sample ids split on the LAST underscore -/

theorem lastSplitUc_eq_none (cs : List Char) (h : '_' ∉ cs) :
    lastSplitUc cs = none := by
  induction cs with
  | nil => rfl
  | cons c rest ih =>
    have hrest : '_' ∉ rest := fun hx => h (List.mem_cons_of_mem c hx)
    have hc : ¬ c = '_' := fun e => h (e ▸ List.mem_cons_self c rest)
    simp [lastSplitUc, ih hrest, hc]

theorem lastSplitUc_append (p suf : List Char) (h : '_' ∉ suf) :
    lastSplitUc (p ++ '_' :: suf) = some (p, suf) := by
  induction p with
  | nil => simp [lastSplitUc, lastSplitUc_eq_none suf h]
  | cons a p ih => simp [lastSplitUc, ih]

theorem registerObs_sample_ids (st : DerepState) (o : String) :
    (registerObs st o).sample_ids = st.sample_ids := by
  unfold registerObs
  split <;> rfl

theorem mem_registerSample (st : DerepState) (s : String) :
    s ∈ (registerSample st s).sample_ids := by
  unfold registerSample
  split
  next h => exact h
  next h => simp

theorem registerSample_subset (st : DerepState) (s s2 : String)
    (h : s2 ∈ (registerSample st s).sample_ids) :
    s2 ∈ st.sample_ids ∨ s2 = s := by
  unfold registerSample at h
  split at h
  · exact Or.inl h
  · rcases List.mem_append.mp h with h2 | h2
    · exact Or.inl h2
    · exact Or.inr (List.mem_singleton.mp h2)

/-- Claim C9: for every H or S record processed by `_parse_uc`, the
sample id is everything before the LAST underscore of the query id (so a
sample name that itself contains underscores is preserved intact), and a
query id containing no underscore raises the dedicated `ValueError`. -/
theorem parse_uc_last_underscore (st : DerepState)
    (a1 a2 a3 a4 a5 a6 a7 f8 f9 marker q t : String)
    (hm : marker = "H" ∨ marker = "S")
    (hq : firstWsToken f8 = some q)
    (ht : firstWsToken f9 = some t) :
    (∀ p suf, q.data = p ++ '_' :: suf → '_' ∉ suf →
      ∃ st2, parse_uc_fieldstep st [marker, a1, a2, a3, a4, a5, a6, a7, f8, f9] =
          .ok st2 ∧ String.mk p ∈ st2.sample_ids ∧
        ∀ s ∈ st2.sample_ids, s ∈ st.sample_ids ∨ s = String.mk p) ∧
    ('_' ∉ q.data →
      parse_uc_fieldstep st [marker, a1, a2, a3, a4, a5, a6, a7, f8, f9] =
        .error (.valueError underscoreMsg)) := by
  constructor
  · intro p suf hqd hsuf
    have hsplit : lastSplitUc q.data = some (p, suf) := by
      rw [hqd]
      exact lastSplitUc_append p suf hsuf
    have hcomp : parse_uc_fieldstep st
        [marker, a1, a2, a3, a4, a5, a6, a7, f8, f9] =
        .ok { registerSample (registerObs st (if t = "*" then q else t))
                (String.mk p) with
              data := bumpCount (registerSample
                  (registerObs st (if t = "*" then q else t))
                  (String.mk p)).data
                ((if t = "*" then q else t), String.mk p) } := by
      rcases hm with rfl | rfl <;>
        simp [parse_uc_fieldstep, hq, ht, hsplit]
    refine ⟨_, hcomp, ?_, ?_⟩
    · exact mem_registerSample _ _
    · intro s hs
      rcases registerSample_subset _ _ _ hs with h2 | h2
      · rw [registerObs_sample_ids] at h2
        exact Or.inl h2
      · exact Or.inr h2
  · intro hnou
    have hnone : lastSplitUc q.data = none := lastSplitUc_eq_none q.data hnou
    rcases hm with rfl | rfl <;>
      simp [parse_uc_fieldstep, hq, ht, hnone]

/-- Witness for C9: the query id `samp_le_7` yields sample id `samp_le`
(the name keeps its internal underscore). -/
theorem parse_uc_last_underscore_witness :
    ∃ st2, parse_uc_fieldstep ⟨[], [], []⟩
        ["H", "0", "5", "*", "*", "*", "*", "*", "samp_le_7", "obs1"] =
          .ok st2 ∧ ("samp_le" : String) ∈ st2.sample_ids ∧
      ∀ s ∈ st2.sample_ids,
        s ∈ (⟨[], [], []⟩ : DerepState).sample_ids ∨ s = "samp_le" :=
  (parse_uc_last_underscore ⟨[], [], []⟩ "0" "5" "*" "*" "*" "*" "*"
      "samp_le_7" "obs1" "H" "samp_le_7" "obs1" (Or.inl rfl) rfl rfl).1
    "samp_le".data "7".data (by decide) (by decide)

end QVsearch
